import Mathlib

/-!
Verification of the DBVerifyPro migration-verification engine.

This file gives a shallow embedding, in Lean 4, of the pure core of the
engine found in src/server/services/database.ts and of the connection pool
in src/server/services/connection-pool.ts, together with theorems settling
the specification claims about it.

Modelling conventions:
* TypeScript strings are Lean String; toLowerCase/trim are the
  lowerString/trimString functions below (the type names and table names
  involved are ASCII, where these agree with the JavaScript behaviour).
* Row counts and timestamps are Nat.
* The JavaScript object typeMap with string keys is an association list in
  source order; direct property lookup is find? on the key, Object.entries
  iteration is iteration over the association list in order.
* Asynchronous adapter calls that can throw are modelled with Except, the
  thrown message being the error value; the data actually fetched from the
  databases (row counts, schemas, sample rows) is passed to the embedded
  functions as explicit arguments, mirroring the call structure of the
  original code.
* Early return chains on booleans are written as the boolean expression
  they compute.
-/

/-- Column descriptor, from the columnSchema object in shared/schema.ts. -/
structure Column where
  name : String
  type : String
  nullable : Bool
deriving DecidableEq, Repr

/-- Result of verifyDataMapping in database.ts. -/
structure DataMappingResult where
  isValid : Bool
  details : String
deriving DecidableEq, Repr

/-- Return value of DatabaseService.processTableVerification. -/
structure TableVerificationResult where
  sourceRows : Nat
  targetRows : Nat
  schemaMatch : Bool
  status : String
  sourceColumns : List Column
  targetColumns : List Column
  dataMappingValid : Bool
  dataMappingDetails : String
deriving DecidableEq, Repr

/-- Per-table verdict, from the tableComparisonSchema object in
shared/schema.ts. -/
structure TableComparison where
  tableName : String
  sourceRows : Nat
  targetRows : Nat
  schemaMatch : Bool
  status : String
  sourceColumns : List Column
  targetColumns : List Column
  dataMappingValid : Bool
  dataMappingDetails : String
deriving DecidableEq, Repr

/-- Run summary, from the verificationSummarySchema object in
shared/schema.ts.  The completedAt timestamp is omitted (wall-clock). -/
structure VerificationSummary where
  status : String
  message : String
  totalTables : Nat
  matchedTables : Nat
  mismatchedTables : Nat
  totalRows : Nat
deriving DecidableEq, Repr

/-- Full result of DatabaseService.verifyMigration. -/
structure VerificationResult where
  summary : VerificationSummary
  comparison : List TableComparison
deriving DecidableEq, Repr

/-- Connection descriptor, from the dbConnectionSchema object in
shared/schema.ts (fileData/fileId omitted; optional fields defaulted). -/
structure DBConnection where
  type : String
  host : String
  port : Nat
  user : String
  password : String
  database : String
  filePath : String
deriving DecidableEq, Repr

/-- The static type-compatibility table of areTypesCompatible
(database.ts lines 446-499), in source order.  JavaScript object keys are
case-sensitive, so the five uppercase SQLite keys are distinct entries
from their lowercase counterparts. -/
def typeMap : List (String × List String) :=
  [ ("varchar", ["character varying", "text", "varchar", "char", "character"]),
    ("char", ["character", "char", "character varying", "varchar"]),
    ("text", ["text", "character varying", "varchar"]),
    ("longtext", ["text", "character varying"]),
    ("mediumtext", ["text", "character varying"]),
    ("tinytext", ["text", "character varying", "varchar"]),
    ("int", ["integer", "bigint", "int", "int4", "int8"]),
    ("integer", ["integer", "bigint", "int", "int4", "int8"]),
    ("tinyint", ["smallint", "integer", "boolean", "int2", "int4"]),
    ("smallint", ["smallint", "integer", "int2", "int4"]),
    ("mediumint", ["integer", "int4"]),
    ("bigint", ["bigint", "integer", "int8", "int4"]),
    ("decimal", ["numeric", "decimal"]),
    ("numeric", ["numeric", "decimal"]),
    ("float", ["real", "double precision", "float4", "float8"]),
    ("double", ["double precision", "real", "float8", "float4"]),
    ("real", ["real", "float4"]),
    ("datetime", ["timestamp", "timestamp without time zone", "timestamp with time zone"]),
    ("timestamp", ["timestamp", "timestamp without time zone", "timestamp with time zone", "datetime"]),
    ("date", ["date"]),
    ("time", ["time", "time without time zone"]),
    ("year", ["integer", "smallint"]),
    ("boolean", ["boolean", "bool"]),
    ("bool", ["boolean", "bool"]),
    ("blob", ["bytea", "blob"]),
    ("longblob", ["bytea", "blob"]),
    ("mediumblob", ["bytea", "blob"]),
    ("tinyblob", ["bytea", "blob"]),
    ("binary", ["bytea", "blob"]),
    ("varbinary", ["bytea", "blob"]),
    ("TEXT", ["text", "character varying", "varchar", "char"]),
    ("INTEGER", ["integer", "bigint", "int", "smallint", "int4", "int8", "int2"]),
    ("REAL", ["real", "double precision", "float", "numeric", "decimal"]),
    ("NUMERIC", ["numeric", "decimal", "real", "double precision"]),
    ("BLOB", ["bytea", "blob"]),
    ("json", ["json", "jsonb"]),
    ("jsonb", ["json", "jsonb"]) ]

/-- JavaScript toLowerCase on the ASCII strings this engine compares. -/
def lowerString (s : String) : String :=
  ⟨s.data.map Char.toLower⟩

/-- JavaScript trim on the ASCII strings this engine compares: leading
and trailing whitespace removed. -/
def trimString (s : String) : String :=
  ⟨((s.data.dropWhile Char.isWhitespace).reverse.dropWhile Char.isWhitespace).reverse⟩

/-- Own-key portion of the JavaScript property lookup typeMap[key]: the
accepted set when key is one of the literal's own keys.  The full bracket
lookup of the program also reaches members inherited from
Object.prototype; jsLookupTypeMap below models that completely. -/
def lookupTypeMap (key : String) : Option (List String) :=
  (typeMap.find? (fun e => e.1 == key)).map (fun e => e.2)

/-- Membership test typeMap[key].includes(target) guarded by the
typeMap[key] truthiness check (database.ts lines 514-525), restricted to
the executions on which it returns: on an inherited Object.prototype key
the program instead throws, which mapAcceptsJS below models. -/
def mapAccepts (key target : String) : Bool :=
  match lookupTypeMap key with
  | some l => l.contains target
  | none => false

/-- Shared-compatibility-group scan over Object.entries(typeMap)
(database.ts lines 528-533). -/
def sharedGroup (x y : String) : Bool :=
  typeMap.any (fun e => e.2.contains x && e.2.contains y)

/-- DatabaseService.areTypesCompatible (database.ts lines 444-537),
boolean projection.  The original is a chain of early returns: exact
match after normalization, then source-to-target table lookup, then
target-to-source lookup, then the shared-compatibility-group scan over
all entries; on every execution that returns, the chain computes exactly
this disjunction (areTypesCompatibleJS_ok below).  The program throws a
TypeError instead of returning on inherited-prototype-key inputs, which
areTypesCompatibleJS models. -/
def areTypesCompatible (sourceType targetType : String) : Bool :=
  let normalizedSource := trimString (lowerString sourceType)
  let normalizedTarget := trimString (lowerString targetType)
  (normalizedSource == normalizedTarget)
  || mapAccepts normalizedSource normalizedTarget
  || mapAccepts normalizedTarget normalizedSource
  || sharedGroup normalizedSource normalizedTarget

/-- Column-by-column positional loop of DatabaseService.compareSchemas
(database.ts lines 406-438): name compared case-insensitively, nullability
exactly, types via areTypesCompatible, first failure wins.  The loop is
only entered with lists of equal length; unequal lengths are mapped to
false conservatively. -/
def compareColumnLists : List Column → List Column → Bool
  | [], [] => true
  | source :: restSource, target :: restTarget =>
    if lowerString source.name != lowerString target.name then false
    else if source.nullable != target.nullable then false
    else if !(areTypesCompatible source.type target.type) then false
    else compareColumnLists restSource restTarget
  | _, _ => false

/-- DatabaseService.compareSchemas (database.ts lines 395-442), boolean
projection; compareSchemasJS below is the fallible embedding including
the TypeError path of the type resolver. -/
def compareSchemas (sourceColumns targetColumns : List Column) : Bool :=
  if sourceColumns.length != targetColumns.length then false
  else compareColumnLists sourceColumns targetColumns

/-- Own property names of Object.prototype in Node: reading typeMap[k]
for any of these yields the inherited member, a truthy function or
object without an includes method.  After the lowercasing normalization
the reachable ones are constructor and the dunder proto accessor. -/
def protoKeys : List String :=
  ["constructor", "hasOwnProperty", "isPrototypeOf", "propertyIsEnumerable",
   "toLocaleString", "toString", "valueOf", "__proto__",
   "__defineGetter__", "__defineSetter__", "__lookupGetter__", "__lookupSetter__"]

/-- Outcome of the JavaScript bracket lookup typeMap[key] on the object
literal: an own key yields its accepted-set array, an Object.prototype
member name yields the inherited truthy non-array, anything else yields
undefined. -/
inductive JsLookup where
  | own (accepted : List String)
  | inherited
  | absent
deriving DecidableEq, Repr

/-- Full JavaScript bracket lookup typeMap[key], prototype chain
included. -/
def jsLookupTypeMap (key : String) : JsLookup :=
  match typeMap.find? (fun e => e.1 == key) with
  | some e => JsLookup.own e.2
  | none => if protoKeys.contains key then JsLookup.inherited else JsLookup.absent

/-- Faithful embedding of the guarded membership test of database.ts
lines 514-525: an own key runs includes, an absent key fails the
truthiness guard and yields false, and an inherited Object.prototype
member passes the guard but has no includes method, so the call throws
a TypeError. -/
def mapAcceptsJS (key target : String) : Except String Bool :=
  match jsLookupTypeMap key with
  | JsLookup.own accepted => Except.ok (accepted.contains target)
  | JsLookup.inherited =>
    Except.error "TypeError: typeMap[key].includes is not a function"
  | JsLookup.absent => Except.ok false

/-- Faithful embedding of DatabaseService.areTypesCompatible
(database.ts lines 444-537) with its early-return order and the
reachable TypeError path: exact match after normalization short-circuits
before any lookup, then the source-to-target and target-to-source
membership tests run in order (either may throw on a prototype key),
then the shared-group scan, which iterates own entries only. -/
def areTypesCompatibleJS (sourceType targetType : String) : Except String Bool :=
  let normalizedSource := trimString (lowerString sourceType)
  let normalizedTarget := trimString (lowerString targetType)
  if normalizedSource == normalizedTarget then Except.ok true
  else
    match mapAcceptsJS normalizedSource normalizedTarget with
    | Except.error e => Except.error e
    | Except.ok true => Except.ok true
    | Except.ok false =>
      match mapAcceptsJS normalizedTarget normalizedSource with
      | Except.error e => Except.error e
      | Except.ok true => Except.ok true
      | Except.ok false => Except.ok (sharedGroup normalizedSource normalizedTarget)

/-- Faithful column loop of compareSchemas: a TypeError thrown by the
type resolver propagates out of the loop instead of producing a
boolean. -/
def compareColumnListsJS : List Column → List Column → Except String Bool
  | [], [] => Except.ok true
  | source :: restSource, target :: restTarget =>
    if lowerString source.name != lowerString target.name then Except.ok false
    else if source.nullable != target.nullable then Except.ok false
    else
      match areTypesCompatibleJS source.type target.type with
      | Except.error e => Except.error e
      | Except.ok compatible =>
        if !compatible then Except.ok false
        else compareColumnListsJS restSource restTarget
  | _, _ => Except.ok false

/-- Faithful embedding of DatabaseService.compareSchemas with the
propagated TypeError path. -/
def compareSchemasJS (sourceColumns targetColumns : List Column) : Except String Bool :=
  if sourceColumns.length != targetColumns.length then Except.ok false
  else compareColumnListsJS sourceColumns targetColumns

/-- DatabaseService.processTableVerification (database.ts lines 976-1013).
The four adapter fetches (two row counts, two schemas) are passed in as
arguments, as is the result that verifyDataMapping would produce for this
table; the latter is consulted only on the branch on which the original
code performs the sample comparison. -/
def processTableVerification (sourceRows targetRows : Nat)
    (sourceColumns targetColumns : List Column)
    (dataMapping : DataMappingResult) : TableVerificationResult :=
  let schemaMatch := compareSchemas sourceColumns targetColumns
  let rowsMatch := sourceRows == targetRows
  let dataMappingResult :=
    if schemaMatch && rowsMatch then dataMapping
    else { isValid := true, details := "Not verified" }
  let status := if schemaMatch && rowsMatch && dataMappingResult.isValid then "MATCH" else "MISMATCH"
  { sourceRows := sourceRows
    targetRows := targetRows
    schemaMatch := schemaMatch
    status := status
    sourceColumns := sourceColumns
    targetColumns := targetColumns
    dataMappingValid := dataMappingResult.isValid
    dataMappingDetails := dataMappingResult.details }

/-- A sampled row: ordered mapping from column name to value, a value being
null (none) or its JavaScript stringification (some). -/
abbrev Row := List (String × Option String)

/-- JavaScript template-literal rendering of a sampled value. -/
def valueToString : Option String → String
  | none => "null"
  | some s => s

/-- Inner column loop of verifyDataMapping (database.ts lines 584-617):
for each source column, find the target column case-insensitively, treat
null as equal only to null, otherwise compare the trimmed
stringifications.  Returns the first failure, none when all cells of this
row match. -/
def compareCells (rowIdx : Nat) (targetRow : Row) : Row → Option DataMappingResult
  | [] => none
  | (sourceKey, sourceValue) :: rest =>
    match targetRow.find? (fun e => lowerString e.1 == lowerString sourceKey) with
    | none =>
      some { isValid := false,
             details := "Column \"" ++ sourceKey ++ "\" not found in target row "
               ++ toString (rowIdx + 1) }
    | some targetEntry =>
      match sourceValue, targetEntry.2 with
      | none, none => compareCells rowIdx targetRow rest
      | none, some tv =>
        some { isValid := false,
               details := "Null value mismatch in row " ++ toString (rowIdx + 1)
                 ++ ", column \"" ++ sourceKey ++ "\": source=null, target=" ++ tv }
      | some sv, none =>
        some { isValid := false,
               details := "Null value mismatch in row " ++ toString (rowIdx + 1)
                 ++ ", column \"" ++ sourceKey ++ "\": source=" ++ sv ++ ", target=null" }
      | some sv, some tv =>
        if trimString sv != trimString tv then
          some { isValid := false,
                 details := "Value mismatch in row " ++ toString (rowIdx + 1)
                   ++ ", column \"" ++ sourceKey ++ "/" ++ targetEntry.1
                   ++ "\": source=\"" ++ trimString sv ++ "\", target=\"" ++ trimString tv ++ "\"" }
        else compareCells rowIdx targetRow rest

/-- Row loop of verifyDataMapping (database.ts lines 568-618).  The two
sample lists have equal length when this loop is entered (checked by the
caller); the leftover case cannot occur then and returns the success
result. -/
def compareSampleRows (total : Nat) : Nat → List Row → List Row → DataMappingResult
  | _, [], _ => { isValid := true, details := "All " ++ toString total ++ " sample rows match perfectly" }
  | i, sourceRow :: restSource, targetRow :: restTarget =>
    if sourceRow.length != targetRow.length then
      { isValid := false,
        details := "Column count mismatch in row " ++ toString (i + 1) ++ ": source="
          ++ toString sourceRow.length ++ ", target=" ++ toString targetRow.length }
    else
      match compareCells i targetRow sourceRow with
      | some failure => failure
      | none => compareSampleRows total (i + 1) restSource restTarget
  | _, _ :: _, [] => { isValid := true, details := "All " ++ toString total ++ " sample rows match perfectly" }

/-- DatabaseService.verifyDataMapping (database.ts lines 539-632).  The
second component counts how many sample-fetch operations (getSampleData
calls) the original performs on that path: zero on the same-SQLite-file
shortcut, two otherwise. -/
def verifyDataMapping (sourceConfig targetConfig : DBConnection)
    (sourceData targetData : List Row) : DataMappingResult × Nat :=
  if sourceConfig.type == "sqlite" && targetConfig.type == "sqlite"
      && sourceConfig.database == targetConfig.database then
    ({ isValid := true, details := "Identical SQLite database - same file for source and target" }, 0)
  else
    let result :=
      if sourceData.length != targetData.length then
        { isValid := false,
          details := "Row count mismatch in sample: source=" ++ toString sourceData.length
            ++ ", target=" ++ toString targetData.length }
      else compareSampleRows sourceData.length 0 sourceData targetData
    (result, 2)

/-- Conversion of one table's outcome into its TableComparison entry, as
performed identically by the sequential loop of verifyMigration
(database.ts lines 805-853) and by the parallel worker
(database.ts lines 908-957): a successful processTableVerification result
is copied field by field, a caught error becomes a MISMATCH verdict whose
detail holds the error message. -/
def tableOutcomeToComparison (tableName : String)
    (outcome : Except String TableVerificationResult) : TableComparison :=
  match outcome with
  | Except.ok r =>
    { tableName := tableName
      sourceRows := r.sourceRows
      targetRows := r.targetRows
      schemaMatch := r.schemaMatch
      status := r.status
      sourceColumns := r.sourceColumns
      targetColumns := r.targetColumns
      dataMappingValid := r.dataMappingValid
      dataMappingDetails := r.dataMappingDetails }
  | Except.error msg =>
    { tableName := tableName
      sourceRows := 0
      targetRows := 0
      schemaMatch := false
      status := "MISMATCH"
      sourceColumns := []
      targetColumns := []
      dataMappingValid := false
      dataMappingDetails := "Processing failed: " ++ msg }

/-- Common-table computation of verifyMigration (database.ts line 750):
source-side tables that also occur in the target listing, in source
discovery order. -/
def commonTables (sourceTables targetTables : List String) : List String :=
  sourceTables.filter (fun table => targetTables.contains table)

/-- Sequential processing branch of verifyMigration (database.ts lines
792-855): one verdict per common table, in discovery order; the outcome
argument stands for the awaited, timeout-wrapped processTableVerification
call, whose thrown errors are absorbed per table. -/
def sequentialComparison (tables : List String)
    (outcome : String → Except String TableVerificationResult) : List TableComparison :=
  tables.map (fun tableName => tableOutcomeToComparison tableName (outcome tableName))

/-- Aggregation of verifyMigration (database.ts lines 770-883) over an
already-built comparison list: matched-table and source-row accumulation,
overall status and message. -/
def aggregateVerification (totalTables : Nat) (comparison : List TableComparison) : VerificationResult :=
  let matchedTables := comparison.countP (fun c => c.status == "MATCH")
  let totalSourceRows := (comparison.map (fun c => c.sourceRows)).sum
  let mismatchedTables := totalTables - matchedTables
  let overallStatus := if mismatchedTables == 0 then "SUCCESS" else "MISMATCH"
  let message :=
    if overallStatus == "SUCCESS" then "Migration Verification Completed Successfully"
    else "Migration Verification Found " ++ toString mismatchedTables
      ++ " Issue" ++ (if mismatchedTables > 1 then "s" else "")
  { summary :=
      { status := overallStatus
        message := message
        totalTables := totalTables
        matchedTables := matchedTables
        mismatchedTables := mismatchedTables
        totalRows := totalSourceRows }
    comparison := comparison }

/-- DatabaseService.verifyMigration (database.ts lines 731-891), sequential
mode, after both connectivity tests succeeded: table discovery on both
sides, intersection, per-table verification with per-table error
absorption, aggregation. -/
def verifyMigration (sourceTables targetTables : List String)
    (outcome : String → Except String TableVerificationResult) : VerificationResult :=
  let common := commonTables sourceTables targetTables
  aggregateVerification common.length (sequentialComparison common outcome)

/-- Pooled connection entry (connection-pool.ts lines 128-134); the live
handle is modelled by a numeric identity. -/
structure PoolEntry where
  connection : Nat
  connType : String
  lastUsed : Nat
  inUse : Bool
  config : DBConnection
deriving DecidableEq, Repr

/-- State of ConnectionPool (connection-pool.ts lines 136-139): the pools
map in insertion order, the active-connection counter and the configured
ceiling. -/
structure PoolState where
  pools : List (String × List PoolEntry)
  activeConnections : Nat
  maxConnections : Nat
deriving DecidableEq, Repr

/-- Error value thrown by the pool (DatabaseError message and code). -/
structure PoolError where
  message : String
  code : String
deriving DecidableEq, Repr

/-- ConnectionPool.getPoolKey (connection-pool.ts lines 149-151). -/
def getPoolKey (config : DBConnection) : String :=
  config.type ++ ":" ++ config.host ++ ":" ++ toString config.port ++ ":"
    ++ config.database ++ ":" ++ config.user

/-- Lookup of this.pools.get(poolKey). -/
def poolLookup (pools : List (String × List PoolEntry)) (key : String) : Option (List PoolEntry) :=
  (pools.find? (fun p => p.1 == key)).map (fun p => p.2)

/-- Entries pooled under a key (empty when the key is absent). -/
def poolEntries (st : PoolState) (key : String) : List PoolEntry :=
  (poolLookup st.pools key).getD []

/-- ConnectionPool.isConnectionValid (connection-pool.ts lines 213-217):
idle age below the five-minute maximum. -/
def isConnectionValid (now : Nat) (entry : PoolEntry) : Bool :=
  now - entry.lastUsed < 300000

/-- ConnectionPool.getAvailableConnection (connection-pool.ts lines
206-211): first entry of the key's pool that is idle and non-expired. -/
def getAvailableConnection (st : PoolState) (key : String) (now : Nat) : Option PoolEntry :=
  match poolLookup st.pools key with
  | none => none
  | some pool => pool.find? (fun c => !c.inUse && isConnectionValid now c)

/-- In-place mutation of the entry found by getAvailableConnection
(connection-pool.ts lines 160-161): the first idle, non-expired entry is
marked in use with a refreshed timestamp. -/
def markFirstAvailableInUse (now : Nat) : List PoolEntry → List PoolEntry
  | [] => []
  | c :: rest =>
    if !c.inUse && isConnectionValid now c then
      { c with lastUsed := now, inUse := true } :: rest
    else c :: markFirstAvailableInUse now rest

/-- Replacement of the entry list stored under a key of the pools map. -/
def updatePool (key : String) (f : List PoolEntry → List PoolEntry) :
    List (String × List PoolEntry) → List (String × List PoolEntry)
  | [] => []
  | (k, p) :: rest =>
    if k == key then (k, f p) :: rest else (k, p) :: updatePool key f rest

/-- ConnectionPool.getConnection (connection-pool.ts lines 153-204).
Clock reads are the now argument; the backend-native connection that
createConnection would produce is the freshId argument (creation failures
are outside this model).  On the reuse path the found entry is marked in
use; at the ceiling a RESOURCE_EXHAUSTED DatabaseError is thrown without
touching the state; otherwise a new in-use entry is appended under its key
and the active counter grows. -/
def ConnectionPool.getConnection (config : DBConnection) (now freshId : Nat)
    (st : PoolState) : Except PoolError (Nat × PoolState) :=
  let poolKey := getPoolKey config
  match getAvailableConnection st poolKey now with
  | some c =>
    Except.ok (c.connection,
      { st with pools := updatePool poolKey (markFirstAvailableInUse now) st.pools })
  | none =>
    if st.activeConnections ≥ st.maxConnections then
      Except.error { message := "Connection pool exhausted", code := "RESOURCE_EXHAUSTED" }
    else
      let entry : PoolEntry :=
        { connection := freshId, connType := config.type, lastUsed := now,
          inUse := true, config := config }
      let pools2 :=
        if (st.pools.find? (fun p => p.1 == poolKey)).isSome then
          updatePool poolKey (fun p => p ++ [entry]) st.pools
        else st.pools ++ [(poolKey, [entry])]
      Except.ok (freshId,
        { st with pools := pools2, activeConnections := st.activeConnections + 1 })

/-- Search of one pool for the released handle (connection-pool.ts lines
258-266): the first entry holding this connection is marked idle with a
refreshed timestamp; none when the handle is not in this pool. -/
def releaseEntry (connId now : Nat) : List PoolEntry → Option (List PoolEntry)
  | [] => none
  | c :: rest =>
    if c.connection == connId then
      some ({ c with inUse := false, lastUsed := now } :: rest)
    else (releaseEntry connId now rest).map (fun r => c :: r)

/-- Iteration of releaseConnection over the pools map in insertion order,
stopping at the first pool containing the handle. -/
def releasePools (connId now : Nat) : List (String × List PoolEntry) → List (String × List PoolEntry)
  | [] => []
  | (k, p) :: rest =>
    match releaseEntry connId now p with
    | some p2 => (k, p2) :: rest
    | none => (k, p) :: releasePools connId now rest

/-- ConnectionPool.releaseConnection (connection-pool.ts lines 256-270).
A handle found in no pool is closed directly, which leaves the pool state
unchanged. -/
def ConnectionPool.releaseConnection (connId now : Nat) (st : PoolState) : PoolState :=
  { st with pools := releasePools connId now st.pools }

/-- Availability view of a pool state: which handle is in use in which
pool, discarding timestamps. -/
def availabilityView (st : PoolState) : List (String × List (Nat × Bool)) :=
  st.pools.map (fun p => (p.1, p.2.map (fun e => (e.connection, e.inUse))))

/-- State of the parallel worker loop of processTablesInParallel
(database.ts lines 899-959): the shared next-table index, the indices
pulled but not yet finished, the indices finished (in completion order)
and the results array (pushed in completion order). -/
structure ParState where
  idx : Nat
  inflight : List Nat
  done : List Nat
  results : List TableComparison
deriving DecidableEq, Repr

/-- Interleaved execution of the worker loop of processTablesInParallel.
JavaScript is single-threaded, so the check-and-increment
tableNames[currentIndex++] is one atomic step (pull); the await on the
table's verification suspends the worker, and its completion later pushes
the verdict (complete).  Workers are symmetric, so a schedule is fully
described by which of the two step kinds fires next and which in-flight
table completes. -/
inductive ParStep (names : List String)
    (outcome : String → Except String TableVerificationResult) :
    ParState → ParState → Prop where
  | pull (s : ParState) (h : s.idx < names.length) :
      ParStep names outcome s
        { idx := s.idx + 1, inflight := s.inflight ++ [s.idx],
          done := s.done, results := s.results }
  | complete (s : ParState) (i : Nat) (h : i ∈ s.inflight) :
      ParStep names outcome s
        { idx := s.idx, inflight := s.inflight.erase i,
          done := s.done ++ [i],
          results := s.results
            ++ [tableOutcomeToComparison (names.getD i "") (outcome (names.getD i ""))] }

/-- Initial state of the worker loop. -/
def parInit : ParState := { idx := 0, inflight := [], done := [], results := [] }

/-- Final sort of processTablesInParallel (database.ts lines 969-973):
results reordered ascending by the discovery index of their table name. -/
def parallelOutput (names : List String) (results : List TableComparison) : List TableComparison :=
  List.insertionSort (fun a b => names.indexOf a.tableName ≤ names.indexOf b.tableName) results

/-- A table verdict lookup used by concrete witness runs: table a fails
with a processing error, every other table verifies cleanly. -/
def outcomeW : String → Except String TableVerificationResult := fun t =>
  if t == "a" then Except.error "boom"
  else Except.ok
    { sourceRows := 3, targetRows := 3, schemaMatch := true, status := "MATCH",
      sourceColumns := [], targetColumns := [], dataMappingValid := true,
      dataMappingDetails := "All 3 sample rows match perfectly" }

/-- Concrete MySQL descriptor for witness runs. -/
def cfgMySQL : DBConnection :=
  { type := "mysql", host := "localhost", port := 3306, user := "root",
    password := "pw", database := "db", filePath := "" }

/-- Concrete SQLite descriptors for witness runs, both referencing the
same logical database. -/
def cfgSqliteA : DBConnection :=
  { type := "sqlite", host := "", port := 0, user := "", password := "",
    database := "uploaded.db", filePath := "/tmp/uploaded.db" }

/-- Second SQLite descriptor with the same logical database name. -/
def cfgSqliteB : DBConnection :=
  { type := "sqlite", host := "", port := 0, user := "", password := "",
    database := "uploaded.db", filePath := "/tmp/uploaded-copy.db" }

/-- Exhausted pool state for witness runs: ceiling reached, no pooled
entry. -/
def poolStExhausted : PoolState :=
  { pools := [], activeConnections := 10, maxConnections := 10 }

/-- Pool state with one in-use entry for witness runs of the release
path. -/
def poolStOne : PoolState :=
  { pools := [(getPoolKey cfgMySQL,
      [{ connection := 7, connType := "mysql", lastUsed := 1000, inUse := true,
         config := cfgMySQL }])],
    activeConnections := 1, maxConnections := 10 }

/-- Positional agreement of two columns as checked by the loop body of
compareSchemas: case-insensitive name equality, exact nullability
equality, type compatibility. -/
def colOk (source target : Column) : Prop :=
  lowerString source.name = lowerString target.name
  ∧ source.nullable = target.nullable
  ∧ areTypesCompatible source.type target.type = true

/-- Concrete column for witness runs. -/
def colW : Column := { name := "id", type := "int", nullable := false }

/-- Concrete data-mapping result for witness runs. -/
def dmW : DataMappingResult :=
  { isValid := true, details := "All 5 sample rows match perfectly" }

instance (source target : Column) : Decidable (colOk source target) := by
  unfold colOk; infer_instance


/-- Pool state with one idle, non-expired entry for witness runs of the
reuse path. -/
def poolStIdle : PoolState :=
  { pools := [(getPoolKey cfgMySQL,
      [{ connection := 7, connType := "mysql", lastUsed := 1000, inUse := false,
         config := cfgMySQL }])],
    activeConnections := 1, maxConnections := 10 }

/-- Verdict produced by a parallel worker for the table at discovery
index i, exactly as pushed by ParStep.complete. -/
def parVerdict (names : List String)
    (outcome : String → Except String TableVerificationResult) (i : Nat) : TableComparison :=
  tableOutcomeToComparison (names.getD i "") (outcome (names.getD i ""))

/-- Invariant of the worker loop: the index never passes the table count,
the finished and in-flight indices together are exactly the pulled prefix,
and the results array holds precisely the verdicts of the finished
indices in completion order. -/
def ParInv (names : List String)
    (outcome : String → Except String TableVerificationResult) (s : ParState) : Prop :=
  s.idx ≤ names.length
  ∧ (s.done ++ s.inflight).Perm (List.range s.idx)
  ∧ s.results = s.done.map (parVerdict names outcome)

theorem tableOutcome_tableName (t : String) (o : Except String TableVerificationResult) :
    (tableOutcomeToComparison t o).tableName = t := by
  cases o <;> rfl

theorem beq_symm_str (x y : String) : (x == y) = (y == x) := by
  by_cases h : x = y
  · subst h; rfl
  · have h1 : (x == y) = false := beq_eq_false_iff_ne.mpr h
    have h2 : (y == x) = false := beq_eq_false_iff_ne.mpr (Ne.symm h)
    rw [h1, h2]

theorem compareColumnLists_iff (s t : List Column) :
    compareColumnLists s t = true ↔ List.Forall₂ colOk s t := by
  induction s generalizing t with
  | nil => cases t <;> simp [compareColumnLists]
  | cons a s ih =>
    cases t with
    | nil => simp [compareColumnLists]
    | cons b t =>
      simp only [compareColumnLists, List.forall₂_cons, colOk]
      by_cases h1 : lowerString a.name = lowerString b.name
      · by_cases h2 : a.nullable = b.nullable
        · by_cases h3 : areTypesCompatible a.type b.type = true
          · simp [h1, h2, h3, ih, bne_iff_ne]
          · simp [h1, h2, h3, bne_iff_ne, Bool.not_eq_true]
        · simp [h1, h2, bne_iff_ne]
      · simp [h1, bne_iff_ne]

theorem compareSchemas_iff_forall₂ (s t : List Column) :
    compareSchemas s t = true ↔ List.Forall₂ colOk s t := by
  unfold compareSchemas
  by_cases h : s.length = t.length
  · have hb : (s.length != t.length) = false := by simp [h]
    rw [hb]
    simp [compareColumnLists_iff]
  · have hb : (s.length != t.length) = true := by simp [h]
    rw [hb]
    simp only [if_pos rfl]
    exact ⟨fun hfalse => absurd hfalse Bool.false_ne_true,
           fun hf => absurd hf.length_eq h⟩

/-- Positional characterization of the boolean projection compareSchemas:
true exactly when the lengths agree and every position has
case-insensitively equal names, equal nullability and compatible types.
Combined with compareSchemasJS_ok this describes every execution of the
program that returns a boolean; the program can also throw, see
compareSchemas_throws. -/
theorem compareSchemas_spec (sourceColumns targetColumns : List Column) :
    compareSchemas sourceColumns targetColumns = true ↔
      (sourceColumns.length = targetColumns.length ∧
       ∀ (i : Nat) (hs : i < sourceColumns.length) (ht : i < targetColumns.length),
         lowerString (sourceColumns.get ⟨i, hs⟩).name = lowerString (targetColumns.get ⟨i, ht⟩).name
         ∧ (sourceColumns.get ⟨i, hs⟩).nullable = (targetColumns.get ⟨i, ht⟩).nullable
         ∧ areTypesCompatible (sourceColumns.get ⟨i, hs⟩).type (targetColumns.get ⟨i, ht⟩).type = true) := by
  rw [compareSchemas_iff_forall₂, List.forall₂_iff_get]
  unfold colOk
  exact Iff.rfl

/-- Evaluation of compareSchemas_spec: a concrete one-column schema
compared against itself. -/
theorem compareSchemas_spec_witness : compareSchemas [colW] [colW] = true :=
  (compareSchemas_spec [colW] [colW]).mpr
    ⟨rfl, fun i hs ht => by
      have hi : i = 0 := Nat.lt_one_iff.mp hs
      subst hi
      refine ⟨rfl, rfl, ?_⟩
      show areTypesCompatible colW.type colW.type = true
      decide⟩

/-- Properties of the boolean projection areTypesCompatible: true on
every pair equal after lowercasing and trimming, hence reflexive, and
symmetric.  The projection is total, but the program itself is not: on
inherited-prototype-key inputs it throws instead of returning, see
areTypesCompatible_throws. -/
theorem areTypesCompatible_spec (a b : String) :
    (trimString (lowerString a) = trimString (lowerString b) → areTypesCompatible a b = true)
    ∧ areTypesCompatible a a = true
    ∧ areTypesCompatible a b = areTypesCompatible b a := by
  refine ⟨fun h => by simp [areTypesCompatible, h], by simp [areTypesCompatible], ?_⟩
  simp only [areTypesCompatible]
  have hg : sharedGroup (trimString (lowerString a)) (trimString (lowerString b))
      = sharedGroup (trimString (lowerString b)) (trimString (lowerString a)) := by
    simp [sharedGroup, Bool.and_comm]
  rw [hg, beq_symm_str]
  cases mapAccepts (trimString (lowerString a)) (trimString (lowerString b))
    <;> cases mapAccepts (trimString (lowerString b)) (trimString (lowerString a))
    <;> simp

/-- Evaluation of areTypesCompatible_spec: a normalized-equal pair,
reflexivity and symmetry at concrete type names. -/
theorem areTypesCompatible_spec_witness :
    areTypesCompatible "Int " "int" = true
    ∧ areTypesCompatible "text" "text" = true
    ∧ areTypesCompatible "int" "bigint" = areTypesCompatible "bigint" "int" :=
  ⟨(areTypesCompatible_spec "Int " "int").1 (by decide),
   (areTypesCompatible_spec "text" "text").2.1,
   (areTypesCompatible_spec "int" "bigint").2.2⟩

/-- C4: for every uppercase key of the static compatibility table (the
five SQLite catalog entries TEXT, INTEGER, REAL, NUMERIC, BLOB) and every
member of its accepted set, areTypesCompatible holds: the uppercase
entries still take effect through the normalized comparison paths even
though the direct object lookup on the lowercased input can never hit an
uppercase key. -/
theorem typeMap_uppercase_compatible :
    (typeMap.filter (fun e => lowerString e.1 != e.1)).all
      (fun e => e.2.all (fun t => areTypesCompatible e.1 t)) = true := by decide

/-- C1: the per-table verdict of processTableVerification is MATCH exactly
when the schema comparison succeeded, the row counts agree and the
(possibly defaulted) row-data comparison result is valid; whenever schema
or counts already failed, the row-data result is the skipped default,
valid with detail Not verified. -/
theorem processTableVerification_spec (sourceRows targetRows : Nat)
    (sourceColumns targetColumns : List Column) (dataMapping : DataMappingResult) :
    ((processTableVerification sourceRows targetRows sourceColumns targetColumns dataMapping).status = "MATCH"
      ↔ (compareSchemas sourceColumns targetColumns = true ∧ sourceRows = targetRows
         ∧ (processTableVerification sourceRows targetRows sourceColumns targetColumns dataMapping).dataMappingValid = true))
    ∧ (¬(compareSchemas sourceColumns targetColumns = true ∧ sourceRows = targetRows) →
        (processTableVerification sourceRows targetRows sourceColumns targetColumns dataMapping).dataMappingValid = true
        ∧ (processTableVerification sourceRows targetRows sourceColumns targetColumns dataMapping).dataMappingDetails = "Not verified") := by
  have hne : ("MISMATCH" : String) ≠ "MATCH" := by decide
  simp only [processTableVerification]
  by_cases h1 : compareSchemas sourceColumns targetColumns = true
  · by_cases h2 : sourceRows = targetRows
    · have h2t : (sourceRows == targetRows) = true := beq_iff_eq.mpr h2
      cases hdm : dataMapping.isValid <;> simp [h1, h2, h2t, hdm, hne]
    · have h2f : (sourceRows == targetRows) = false := beq_eq_false_iff_ne.mpr h2
      simp [h1, h2, h2f, hne]
  · have h1f : compareSchemas sourceColumns targetColumns = false :=
      Bool.eq_false_iff.mpr h1
    simp [h1, h1f, hne]

/-- C1 witness: schema comparison fails (column counts differ), so the
verdict carries the skipped default data-mapping result. -/
theorem processTableVerification_spec_witness :
    (processTableVerification 1 2 [] [colW] dmW).dataMappingValid = true
    ∧ (processTableVerification 1 2 [] [colW] dmW).dataMappingDetails = "Not verified" :=
  (processTableVerification_spec 1 2 [] [colW] dmW).2 (by decide)

theorem sequentialComparison_map_tableName (tables : List String)
    (outcome : String → Except String TableVerificationResult) :
    (sequentialComparison tables outcome).map (fun c => c.tableName) = tables := by
  unfold sequentialComparison
  rw [List.map_map]
  have hfun : ((fun c => c.tableName) ∘ fun t => tableOutcomeToComparison t (outcome t))
      = id := by
    funext t
    exact tableOutcome_tableName t (outcome t)
  rw [hfun, List.map_id]

/-- C2: for a run that reaches aggregation, the summary status is SUCCESS
exactly when every common table verdict is MATCH; the comparison list has
exactly one verdict per common table (tables present on only one side
produce no verdict), and the table counts of the summary are computed
over the common tables only. -/
theorem verifyMigration_success_iff (sourceTables targetTables : List String)
    (outcome : String → Except String TableVerificationResult) :
    ((verifyMigration sourceTables targetTables outcome).summary.status = "SUCCESS"
      ↔ ∀ c ∈ (verifyMigration sourceTables targetTables outcome).comparison, c.status = "MATCH")
    ∧ (verifyMigration sourceTables targetTables outcome).comparison.map (fun c => c.tableName)
        = commonTables sourceTables targetTables
    ∧ (verifyMigration sourceTables targetTables outcome).summary.totalTables
        = (commonTables sourceTables targetTables).length
    ∧ (verifyMigration sourceTables targetTables outcome).summary.matchedTables
        = (verifyMigration sourceTables targetTables outcome).comparison.countP (fun c => c.status == "MATCH")
    ∧ (verifyMigration sourceTables targetTables outcome).summary.mismatchedTables
        = (verifyMigration sourceTables targetTables outcome).summary.totalTables
          - (verifyMigration sourceTables targetTables outcome).summary.matchedTables := by
  refine ⟨?_, sequentialComparison_map_tableName _ _, rfl, rfl, rfl⟩
  show (aggregateVerification _ _).summary.status = "SUCCESS" ↔ _
  simp only [verifyMigration, aggregateVerification]
  have hlen : (sequentialComparison (commonTables sourceTables targetTables) outcome).length
      = (commonTables sourceTables targetTables).length := by
    unfold sequentialComparison
    exact List.length_map _ _
  set common := commonTables sourceTables targetTables
  set comparison := sequentialComparison common outcome
  have hcount : comparison.countP (fun c => c.status == "MATCH") ≤ common.length := by
    rw [← hlen]
    exact List.countP_le_length _
  have hne : ("MISMATCH" : String) ≠ "SUCCESS" := by decide
  by_cases hz : common.length - comparison.countP (fun c => c.status == "MATCH") = 0
  · have hz2 : (common.length - comparison.countP (fun c => c.status == "MATCH") == 0) = true :=
      beq_iff_eq.mpr hz
    simp only [hz2, if_pos rfl]
    constructor
    · intro _ c hc
      have hfull : comparison.countP (fun c => c.status == "MATCH") = comparison.length := by
        have := Nat.le_antisymm (Nat.le_of_sub_eq_zero hz) hcount
        rw [← this, hlen]
      have := List.countP_eq_length.mp hfull c hc
      exact beq_iff_eq.mp this
    · intro _; rfl
  · have hz2 : (common.length - comparison.countP (fun c => c.status == "MATCH") == 0) = false :=
      beq_eq_false_iff_ne.mpr hz
    have hcond : ¬((common.length - comparison.countP (fun c => c.status == "MATCH") == 0) = true) := by
      rw [hz2]
      exact Bool.false_ne_true
    rw [if_neg hcond]
    constructor
    · intro h; exact absurd h hne
    · intro hall
      exfalso
      apply hz
      have hfull : comparison.countP (fun c => c.status == "MATCH") = comparison.length :=
        List.countP_eq_length.mpr (fun c hc => beq_iff_eq.mpr (hall c hc))
      rw [hfull, hlen, Nat.sub_self]

/-- C2 witness: a run over one identical common table aggregates to
SUCCESS, and a source table missing from the target yields no verdict. -/
theorem verifyMigration_success_iff_witness :
    (verifyMigration ["a", "b"] ["b", "c"] outcomeW).summary.status = "SUCCESS"
    ∧ (verifyMigration ["a", "b"] ["b", "c"] outcomeW).comparison.map (fun c => c.tableName) = ["b"] :=
  ⟨(verifyMigration_success_iff ["a", "b"] ["b", "c"] outcomeW).1.mpr (by decide),
   (verifyMigration_success_iff ["a", "b"] ["b", "c"] outcomeW).2.1⟩

/-- C9: when source and target are both SQLite and reference the identical
logical database, verifyDataMapping returns the valid shortcut result and
performs no sample fetch at all. -/
theorem verifyDataMapping_same_sqlite (sourceConfig targetConfig : DBConnection)
    (sourceData targetData : List Row)
    (h1 : sourceConfig.type = "sqlite") (h2 : targetConfig.type = "sqlite")
    (h3 : sourceConfig.database = targetConfig.database) :
    verifyDataMapping sourceConfig targetConfig sourceData targetData
      = ({ isValid := true,
           details := "Identical SQLite database - same file for source and target" }, 0) := by
  unfold verifyDataMapping
  have hc : (sourceConfig.type == "sqlite" && targetConfig.type == "sqlite"
      && (sourceConfig.database == targetConfig.database)) = true := by
    rw [h1, h3]
    simp [h2]
  rw [hc]
  simp

/-- C9 witness: two SQLite descriptors with the same database name but
different file paths short-circuit without consulting the sample data. -/
theorem verifyDataMapping_same_sqlite_witness :
    verifyDataMapping cfgSqliteA cfgSqliteB [[("x", some "1")]] []
      = ({ isValid := true,
           details := "Identical SQLite database - same file for source and target" }, 0) :=
  verifyDataMapping_same_sqlite cfgSqliteA cfgSqliteB [[("x", some "1")]] [] rfl rfl rfl

theorem sorted_key_perm_eq {α : Type} (key : α → Nat) :
    ∀ (l1 : List α) {l2 : List α}, l1.Perm l2 →
      l1.Sorted (fun x y => key x ≤ key y) → l2.Sorted (fun x y => key x ≤ key y) →
      (l1.map key).Nodup → l1 = l2 := by
  intro l1
  induction l1 with
  | nil =>
    intro l2 hp _ _ _
    exact hp.nil_eq
  | cons a t ih =>
    intro l2 hp hs1 hs2 hnd
    simp only [List.map_cons, List.nodup_cons] at hnd
    cases l2 with
    | nil => exact absurd hp.eq_nil (List.cons_ne_nil a t)
    | cons b t2 =>
      by_cases hab : a = b
      · subst hab
        have ht : t = t2 :=
          ih hp.cons_inv (List.sorted_cons.mp hs1).2 (List.sorted_cons.mp hs2).2 hnd.2
        rw [ht]
      · have hb : b ∈ a :: t := hp.symm.subset (List.mem_cons_self b t2)
        have hbt : b ∈ t := by
          rcases List.mem_cons.mp hb with h | h
          · exact absurd h.symm hab
          · exact h
        have ha : a ∈ b :: t2 := hp.subset (List.mem_cons_self a t)
        have hat : a ∈ t2 := by
          rcases List.mem_cons.mp ha with h | h
          · exact absurd h hab
          · exact h
        have h1 : key a ≤ key b := List.rel_of_sorted_cons hs1 b hbt
        have h2 : key b ≤ key a := List.rel_of_sorted_cons hs2 a hat
        have hk : key a = key b := Nat.le_antisymm h1 h2
        exact absurd (hk ▸ List.mem_map_of_mem key hbt) hnd.1

theorem insertionSort_key_eq {α : Type} (key : α → Nat) (l l2 : List α)
    (hp : l2.Perm l) (hs : l.Sorted (fun x y => key x ≤ key y))
    (hnd : (l.map key).Nodup) :
    List.insertionSort (fun x y => key x ≤ key y) l2 = l := by
  haveI : IsTotal α (fun x y => key x ≤ key y) := ⟨fun x y => Nat.le_total (key x) (key y)⟩
  haveI : IsTrans α (fun x y => key x ≤ key y) := ⟨fun x y z h1 h2 => Nat.le_trans h1 h2⟩
  have hperm : (List.insertionSort (fun x y => key x ≤ key y) l2).Perm l :=
    (List.perm_insertionSort _ l2).trans hp
  exact sorted_key_perm_eq key _ hperm (List.sorted_insertionSort _ l2) hs
    (((hperm.map key).nodup_iff).mpr hnd)

theorem parInv_init (names : List String)
    (outcome : String → Except String TableVerificationResult) :
    ParInv names outcome parInit := by
  refine ⟨Nat.zero_le _, ?_, rfl⟩
  simp [parInit]

theorem parInv_step (names : List String)
    (outcome : String → Except String TableVerificationResult) {s s2 : ParState}
    (hstep : ParStep names outcome s s2) (hinv : ParInv names outcome s) :
    ParInv names outcome s2 := by
  obtain ⟨hidx, hperm, hres⟩ := hinv
  cases hstep with
  | pull h =>
    refine ⟨h, ?_, hres⟩
    show (s.done ++ (s.inflight ++ [s.idx])).Perm (List.range (s.idx + 1))
    rw [List.range_succ, ← List.append_assoc]
    exact hperm.append_right [s.idx]
  | complete i h =>
    refine ⟨hidx, ?_, ?_⟩
    · show ((s.done ++ [i]) ++ s.inflight.erase i).Perm (List.range s.idx)
      rw [List.append_assoc, List.singleton_append]
      exact (List.Perm.append_left s.done (List.perm_cons_erase h).symm).trans hperm
    · show s.results ++ [parVerdict names outcome i] = (s.done ++ [i]).map (parVerdict names outcome)
      rw [List.map_append, ← hres]
      rfl

theorem parInv_reachable (names : List String)
    (outcome : String → Except String TableVerificationResult) {s : ParState}
    (h : Relation.ReflTransGen (ParStep names outcome) parInit s) :
    ParInv names outcome s := by
  induction h with
  | refl => exact parInv_init names outcome
  | tail _ hstep ih => exact parInv_step names outcome hstep ih

theorem map_range_parVerdict (names : List String)
    (outcome : String → Except String TableVerificationResult) :
    (List.range names.length).map (parVerdict names outcome)
      = sequentialComparison names outcome := by
  apply List.ext_getElem
  · simp [sequentialComparison]
  · intro i h1 h2
    have hlt : i < names.length := by simpa using h1
    simp only [List.getElem_map, List.getElem_range, sequentialComparison]
    have hg : names.getD i "" = names[i] := by
      rw [List.getD_eq_getElem?_getD, List.getElem?_eq_getElem hlt]
      rfl
    unfold parVerdict
    rw [hg]

theorem parallel_results_perm (names : List String)
    (outcome : String → Except String TableVerificationResult) {s : ParState}
    (hreach : Relation.ReflTransGen (ParStep names outcome) parInit s)
    (hidx : s.idx = names.length) (hfin : s.inflight = []) :
    s.results.Perm (sequentialComparison names outcome) := by
  obtain ⟨-, hperm, hres⟩ := parInv_reachable names outcome hreach
  rw [hfin, List.append_nil, hidx] at hperm
  rw [hres, ← map_range_parVerdict names outcome]
  exact hperm.map _

theorem sequential_keys (names : List String)
    (outcome : String → Except String TableVerificationResult) (hn : names.Nodup) :
    (sequentialComparison names outcome).map (fun c => names.indexOf c.tableName)
      = List.range names.length := by
  apply List.ext_getElem
  · simp [sequentialComparison]
  · intro i h1 h2
    have hlt : i < names.length := by simpa using h2
    simp only [List.getElem_map, List.getElem_range, sequentialComparison]
    rw [tableOutcome_tableName]
    exact List.indexOf_getElem hn i hlt

theorem sequential_sorted (names : List String)
    (outcome : String → Except String TableVerificationResult) (hn : names.Nodup) :
    (sequentialComparison names outcome).Sorted
      (fun a b => names.indexOf a.tableName ≤ names.indexOf b.tableName) := by
  have hp : List.Pairwise (· ≤ ·)
      ((sequentialComparison names outcome).map (fun c => names.indexOf c.tableName)) := by
    rw [sequential_keys names outcome hn]
    exact List.pairwise_le_range names.length
  exact (List.pairwise_map).mp hp

theorem parallelOutput_eq_sequential (names : List String)
    (outcome : String → Except String TableVerificationResult) {s : ParState}
    (hn : names.Nodup)
    (hreach : Relation.ReflTransGen (ParStep names outcome) parInit s)
    (hidx : s.idx = names.length) (hfin : s.inflight = []) :
    parallelOutput names s.results = sequentialComparison names outcome := by
  unfold parallelOutput
  exact insertionSort_key_eq (fun c => names.indexOf c.tableName)
    (sequentialComparison names outcome) s.results
    (parallel_results_perm names outcome hreach hidx hfin)
    (sequential_sorted names outcome hn)
    (by rw [sequential_keys names outcome hn]; exact List.nodup_range names.length)

/-- C6: for every schedule of the parallel workers reaching a terminal
state (all tables pulled, none in flight), the sorted output of
processTablesInParallel lists the verdicts in source-side discovery
order, whatever the completion order was. -/
theorem processTablesInParallel_order (names : List String)
    (outcome : String → Except String TableVerificationResult) (s : ParState)
    (hn : names.Nodup)
    (hreach : Relation.ReflTransGen (ParStep names outcome) parInit s)
    (hidx : s.idx = names.length) (hfin : s.inflight = []) :
    (parallelOutput names s.results).map (fun c => c.tableName) = names := by
  rw [parallelOutput_eq_sequential names outcome hn hreach hidx hfin]
  exact sequentialComparison_map_tableName names outcome

/-- C10: every terminal schedule of the parallel worker loop has
processed each common table exactly once — the raw results are a
permutation of one verdict per table — and its sorted output equals, as a
list, the output of the sequential mode under the same per-table
outcomes. -/
theorem processTablesInParallel_refines (names : List String)
    (outcome : String → Except String TableVerificationResult) (s : ParState)
    (hn : names.Nodup)
    (hreach : Relation.ReflTransGen (ParStep names outcome) parInit s)
    (hidx : s.idx = names.length) (hfin : s.inflight = []) :
    parallelOutput names s.results = sequentialComparison names outcome
    ∧ (s.results.map (fun c => c.tableName)).Perm names := by
  refine ⟨parallelOutput_eq_sequential names outcome hn hreach hidx hfin, ?_⟩
  have hperm := (parallel_results_perm names outcome hreach hidx hfin).map (fun c => c.tableName)
  rw [sequentialComparison_map_tableName names outcome] at hperm
  exact hperm

/-- C7: a per-table error is absorbed: the verdict of the failing table
is MISMATCH, its detail string contains the error message, and the run
still yields one verdict per common table, in sequential mode and for
every terminal parallel schedule. -/
theorem tableError_absorbed (tables : List String)
    (outcome : String → Except String TableVerificationResult) (t msg : String)
    (h : outcome t = Except.error msg) :
    (tableOutcomeToComparison t (outcome t)).status = "MISMATCH"
    ∧ (∃ pre post, (tableOutcomeToComparison t (outcome t)).dataMappingDetails = pre ++ msg ++ post)
    ∧ (sequentialComparison tables outcome).length = tables.length
    ∧ (∀ s : ParState, Relation.ReflTransGen (ParStep tables outcome) parInit s →
        s.idx = tables.length → s.inflight = [] → s.results.length = tables.length) := by
  refine ⟨by rw [h]; rfl, ⟨"Processing failed: ", "", ?_⟩, List.length_map _ _, ?_⟩
  · rw [h]
    show "Processing failed: " ++ msg = "Processing failed: " ++ msg ++ ""
    rw [String.append_empty]
  · intro s hreach hidx hfin
    rw [(parallel_results_perm tables outcome hreach hidx hfin).length_eq]
    exact List.length_map _ _

/-- C7 witness: concrete failing table in a two-table run. -/
theorem tableError_absorbed_witness :
    (tableOutcomeToComparison "a" (outcomeW "a")).status = "MISMATCH"
    ∧ (sequentialComparison ["a", "b"] outcomeW).length = 2 :=
  ⟨(tableError_absorbed ["a", "b"] outcomeW "a" "boom" rfl).1,
   (tableError_absorbed ["a", "b"] outcomeW "a" "boom" rfl).2.2.1⟩

theorem parTraceW :
    Relation.ReflTransGen (ParStep ["a", "b"] outcomeW) parInit
      { idx := 2, inflight := [], done := [1, 0],
        results := [tableOutcomeToComparison "b" (outcomeW "b"),
                    tableOutcomeToComparison "a" (outcomeW "a")] } := by
  have h1 : ParStep ["a", "b"] outcomeW parInit
      { idx := 1, inflight := [0], done := [], results := [] } :=
    ParStep.pull parInit (by decide)
  have h2 : ParStep ["a", "b"] outcomeW
      { idx := 1, inflight := [0], done := [], results := [] }
      { idx := 2, inflight := [0, 1], done := [], results := [] } :=
    ParStep.pull _ (by decide)
  have h3 : ParStep ["a", "b"] outcomeW
      { idx := 2, inflight := [0, 1], done := [], results := [] }
      { idx := 2, inflight := [0], done := [1],
        results := [tableOutcomeToComparison "b" (outcomeW "b")] } :=
    ParStep.complete _ 1 (by decide)
  have h4 : ParStep ["a", "b"] outcomeW
      { idx := 2, inflight := [0], done := [1],
        results := [tableOutcomeToComparison "b" (outcomeW "b")] }
      { idx := 2, inflight := [], done := [1, 0],
        results := [tableOutcomeToComparison "b" (outcomeW "b"),
                    tableOutcomeToComparison "a" (outcomeW "a")] } :=
    ParStep.complete _ 0 (by decide)
  exact ((((Relation.ReflTransGen.refl).tail h1).tail h2).tail h3).tail h4

/-- C6 witness: a two-table run whose tables complete in reverse order
still reports in discovery order. -/
theorem processTablesInParallel_order_witness :
    (parallelOutput ["a", "b"]
        [tableOutcomeToComparison "b" (outcomeW "b"),
         tableOutcomeToComparison "a" (outcomeW "a")]).map (fun c => c.tableName)
      = ["a", "b"] :=
  processTablesInParallel_order ["a", "b"] outcomeW
    { idx := 2, inflight := [], done := [1, 0],
      results := [tableOutcomeToComparison "b" (outcomeW "b"),
                  tableOutcomeToComparison "a" (outcomeW "a")] }
    (by decide) parTraceW rfl rfl

/-- C10 witness: the same reverse-completion schedule produces exactly
the sequential output after the final sort. -/
theorem processTablesInParallel_refines_witness :
    parallelOutput ["a", "b"]
        [tableOutcomeToComparison "b" (outcomeW "b"),
         tableOutcomeToComparison "a" (outcomeW "a")]
      = sequentialComparison ["a", "b"] outcomeW :=
  (processTablesInParallel_refines ["a", "b"] outcomeW
    { idx := 2, inflight := [], done := [1, 0],
      results := [tableOutcomeToComparison "b" (outcomeW "b"),
                  tableOutcomeToComparison "a" (outcomeW "a")] }
    (by decide) parTraceW rfl rfl).1

theorem releaseEntry_isSome (connId n m : Nat) :
    ∀ pool : List PoolEntry,
      (releaseEntry connId n pool).isSome = (releaseEntry connId m pool).isSome := by
  intro pool
  induction pool with
  | nil => rfl
  | cons c rest ih =>
    simp only [releaseEntry]
    by_cases hc : (c.connection == connId) = true
    · rw [if_pos hc, if_pos hc]
      rfl
    · rw [if_neg hc, if_neg hc]
      cases hr1 : releaseEntry connId n rest <;> cases hr2 : releaseEntry connId m rest <;>
        rw [hr1, hr2] at ih <;> simp_all

theorem releaseEntry_twice (connId n1 n2 : Nat) :
    ∀ (pool p1 : List PoolEntry), releaseEntry connId n1 pool = some p1 →
      ∃ p2, releaseEntry connId n2 p1 = some p2
        ∧ p2.map (fun e => (e.connection, e.inUse)) = p1.map (fun e => (e.connection, e.inUse)) := by
  intro pool
  induction pool with
  | nil =>
    intro p1 h
    exact absurd h (by simp [releaseEntry])
  | cons c rest ih =>
    intro p1 h
    simp only [releaseEntry] at h
    by_cases hc : (c.connection == connId) = true
    · rw [if_pos hc] at h
      obtain rfl : ({ c with inUse := false, lastUsed := n1 } :: rest) = p1 := Option.some.inj h
      refine ⟨{ c with inUse := false, lastUsed := n2 } :: rest, ?_, rfl⟩
      simp only [releaseEntry]
      rw [if_pos hc]
    · rw [if_neg hc] at h
      obtain ⟨r1, hr1, rfl⟩ : ∃ r1, releaseEntry connId n1 rest = some r1 ∧ c :: r1 = p1 := by
        cases hr : releaseEntry connId n1 rest with
        | none => rw [hr] at h; cases h
        | some r => rw [hr] at h; exact ⟨r, rfl, Option.some.inj h⟩
      obtain ⟨r2, hr2, hflags⟩ := ih r1 hr1
      refine ⟨c :: r2, ?_, ?_⟩
      · simp only [releaseEntry]
        rw [if_neg hc, hr2]
        rfl
      · simp only [List.map_cons, hflags]

theorem releasePools_twice (connId n1 n2 : Nat) :
    ∀ pools : List (String × List PoolEntry),
      (releasePools connId n2 (releasePools connId n1 pools)).map
          (fun p => (p.1, p.2.map (fun e => (e.connection, e.inUse))))
        = (releasePools connId n1 pools).map
          (fun p => (p.1, p.2.map (fun e => (e.connection, e.inUse)))) := by
  intro pools
  induction pools with
  | nil => rfl
  | cons kp rest ih =>
    obtain ⟨k, p⟩ := kp
    cases hr : releaseEntry connId n1 p with
    | some p1 =>
      obtain ⟨p2, hp2, hflags⟩ := releaseEntry_twice connId n1 n2 p p1 hr
      simp only [releasePools, hr, hp2, List.map_cons, hflags]
    | none =>
      have hnone : releaseEntry connId n2 p = none := by
        have hs := releaseEntry_isSome connId n1 n2 p
        rw [hr] at hs
        cases hm : releaseEntry connId n2 p with
        | none => rfl
        | some r => rw [hm] at hs; simp at hs
      simp only [releasePools, hr, hnone, List.map_cons, ih]

theorem getAvailableConnection_none (st : PoolState) (key : String) (now : Nat)
    (hno : ∀ c ∈ poolEntries st key, (!c.inUse && isConnectionValid now c) = false) :
    getAvailableConnection st key now = none := by
  unfold getAvailableConnection
  cases hl : poolLookup st.pools key with
  | none => rfl
  | some pool =>
    have hpe : poolEntries st key = pool := by rw [poolEntries, hl]; rfl
    rw [List.find?_eq_none]
    intro x hx
    have hf := hno x (by rw [hpe]; exact hx)
    simp [hf]

/-- C8: getConnection reuses an idle, non-expired entry of the same
identity key when one exists (leaving the active count unchanged),
creates a fresh connection only below the configured ceiling (raising the
count by one), and at the ceiling fails immediately with the
RESOURCE_EXHAUSTED error instead of blocking; releasing the same handle
twice keeps the active count at its value before both releases and leaves
the per-entry availability flags identical to those after the first
release. -/
theorem connectionPool_spec (config : DBConnection) (now freshId : Nat) (st : PoolState)
    (connId now1 now2 : Nat) :
    ((∃ c ∈ poolEntries st (getPoolKey config), (!c.inUse && isConnectionValid now c) = true) →
       ∃ c, c ∈ poolEntries st (getPoolKey config) ∧ c.inUse = false
         ∧ isConnectionValid now c = true
         ∧ ∃ st2, ConnectionPool.getConnection config now freshId st = Except.ok (c.connection, st2)
             ∧ st2.activeConnections = st.activeConnections)
    ∧ ((∀ c ∈ poolEntries st (getPoolKey config), (!c.inUse && isConnectionValid now c) = false) →
        st.activeConnections < st.maxConnections →
        ∃ st2, ConnectionPool.getConnection config now freshId st = Except.ok (freshId, st2)
          ∧ st2.activeConnections = st.activeConnections + 1)
    ∧ ((∀ c ∈ poolEntries st (getPoolKey config), (!c.inUse && isConnectionValid now c) = false) →
        st.maxConnections ≤ st.activeConnections →
        ConnectionPool.getConnection config now freshId st
          = Except.error { message := "Connection pool exhausted", code := "RESOURCE_EXHAUSTED" })
    ∧ ((ConnectionPool.releaseConnection connId now1 st).activeConnections = st.activeConnections
        ∧ (ConnectionPool.releaseConnection connId now2
            (ConnectionPool.releaseConnection connId now1 st)).activeConnections
            = st.activeConnections
        ∧ availabilityView (ConnectionPool.releaseConnection connId now2
            (ConnectionPool.releaseConnection connId now1 st))
            = availabilityView (ConnectionPool.releaseConnection connId now1 st)) := by
  refine ⟨?_, ?_, ?_, rfl, rfl, ?_⟩
  · intro hex
    obtain ⟨c0, hc0mem, hc0p⟩ := hex
    obtain ⟨pool, hl⟩ : ∃ pool, poolLookup st.pools (getPoolKey config) = some pool := by
      cases hl : poolLookup st.pools (getPoolKey config) with
      | none =>
        rw [poolEntries, hl] at hc0mem
        exact absurd hc0mem (List.not_mem_nil c0)
      | some pool => exact ⟨pool, rfl⟩
    have hpe : poolEntries st (getPoolKey config) = pool := by rw [poolEntries, hl]; rfl
    have hsome : (pool.find? (fun c => !c.inUse && isConnectionValid now c)).isSome := by
      rw [List.find?_isSome]
      refine ⟨c0, ?_, hc0p⟩
      rw [← hpe]
      exact hc0mem
    obtain ⟨c, hc⟩ := Option.isSome_iff_exists.mp hsome
    have hav : getAvailableConnection st (getPoolKey config) now = some c := by
      unfold getAvailableConnection
      rw [hl]
      exact hc
    have hprop := List.find?_some hc
    have hrun : ConnectionPool.getConnection config now freshId st
        = Except.ok (c.connection,
            { st with pools := updatePool (getPoolKey config) (markFirstAvailableInUse now) st.pools }) := by
      simp only [ConnectionPool.getConnection]
      rw [hav]
    refine ⟨c, ?_, ?_, ?_, ⟨_, hrun, rfl⟩⟩
    · rw [hpe]
      exact List.mem_of_find?_eq_some hc
    · exact (Bool.not_eq_true' c.inUse) ▸ ((Bool.and_eq_true _ _).mp hprop).1
    · exact ((Bool.and_eq_true _ _).mp hprop).2
  · intro hno hlt
    have hav := getAvailableConnection_none st (getPoolKey config) now hno
    refine ⟨{ st with
        pools :=
          if (st.pools.find? (fun p => p.1 == getPoolKey config)).isSome then
            updatePool (getPoolKey config)
              (fun p => p ++ [{ connection := freshId, connType := config.type,
                                lastUsed := now, inUse := true, config := config }]) st.pools
          else st.pools ++ [(getPoolKey config,
            [{ connection := freshId, connType := config.type, lastUsed := now,
               inUse := true, config := config }])],
        activeConnections := st.activeConnections + 1 }, ?_, rfl⟩
    simp only [ConnectionPool.getConnection]
    rw [hav, if_neg (Nat.not_le.mpr hlt)]
  · intro hno hge
    have hav := getAvailableConnection_none st (getPoolKey config) now hno
    simp only [ConnectionPool.getConnection]
    rw [hav, if_pos hge]
  · show (releasePools connId now2 (releasePools connId now1 st.pools)).map _
        = (releasePools connId now1 st.pools).map _
    exact releasePools_twice connId now1 now2 st.pools

/-- C8 witness: reuse from an idle pool, creation below the ceiling,
immediate RESOURCE_EXHAUSTED at the ceiling, and an uncorrupted double
release, all at concrete pool states. -/
theorem connectionPool_spec_witness :
    (∃ c, c ∈ poolEntries poolStIdle (getPoolKey cfgMySQL) ∧ c.inUse = false
       ∧ isConnectionValid 2000 c = true
       ∧ ∃ st2, ConnectionPool.getConnection cfgMySQL 2000 99 poolStIdle
             = Except.ok (c.connection, st2)
           ∧ st2.activeConnections = poolStIdle.activeConnections)
    ∧ (∃ st2, ConnectionPool.getConnection cfgMySQL 5000 99 poolStOne = Except.ok (99, st2)
        ∧ st2.activeConnections = poolStOne.activeConnections + 1)
    ∧ ConnectionPool.getConnection cfgMySQL 5000 99 poolStExhausted
        = Except.error { message := "Connection pool exhausted", code := "RESOURCE_EXHAUSTED" }
    ∧ availabilityView (ConnectionPool.releaseConnection 7 3000
          (ConnectionPool.releaseConnection 7 2000 poolStOne))
        = availabilityView (ConnectionPool.releaseConnection 7 2000 poolStOne) :=
  ⟨(connectionPool_spec cfgMySQL 2000 99 poolStIdle 0 0 0).1 (by decide),
   (connectionPool_spec cfgMySQL 5000 99 poolStOne 0 0 0).2.1 (by decide) (by decide),
   (connectionPool_spec cfgMySQL 5000 99 poolStExhausted 0 0 0).2.2.1 (by decide) (by decide),
   (connectionPool_spec cfgMySQL 0 0 poolStOne 7 2000 3000).2.2.2.2.2⟩

theorem mapAcceptsJS_ok (key target : String) (r : Bool)
    (h : mapAcceptsJS key target = Except.ok r) : mapAccepts key target = r := by
  cases hf : typeMap.find? (fun e => e.1 == key) with
  | some e =>
    simp only [mapAcceptsJS, jsLookupTypeMap, hf] at h
    simp only [mapAccepts, lookupTypeMap, hf]
    exact Except.ok.inj h
  | none =>
    simp only [mapAcceptsJS, jsLookupTypeMap, hf] at h
    simp only [mapAccepts, lookupTypeMap, hf]
    by_cases hp : protoKeys.contains key = true
    · rw [if_pos hp] at h
      cases h
    · rw [if_neg hp] at h
      exact Except.ok.inj h

theorem areTypesCompatibleJS_ok (a b : String) (r : Bool)
    (h : areTypesCompatibleJS a b = Except.ok r) : areTypesCompatible a b = r := by
  simp only [areTypesCompatibleJS] at h
  simp only [areTypesCompatible]
  by_cases he : (trimString (lowerString a) == trimString (lowerString b)) = true
  · rw [if_pos he] at h
    rw [he]
    have hr : true = r := Except.ok.inj h
    subst hr
    rfl
  · rw [if_neg he] at h
    rw [Bool.eq_false_iff.mpr he]
    cases h1 : mapAcceptsJS (trimString (lowerString a)) (trimString (lowerString b)) with
    | error e =>
      rw [h1] at h
      simp at h
    | ok r1 =>
      rw [h1] at h
      rw [mapAcceptsJS_ok _ _ _ h1]
      cases r1 with
      | true =>
        have hr : true = r := Except.ok.inj h
        subst hr
        rfl
      | false =>
        cases h2 : mapAcceptsJS (trimString (lowerString b)) (trimString (lowerString a)) with
        | error e =>
          rw [h2] at h
          simp at h
        | ok r2 =>
          rw [h2] at h
          rw [mapAcceptsJS_ok _ _ _ h2]
          cases r2 with
          | true =>
            have hr : true = r := Except.ok.inj h
            subst hr
            rfl
          | false =>
            have hr : sharedGroup (trimString (lowerString a)) (trimString (lowerString b)) = r :=
              Except.ok.inj h
            subst hr
            rfl

theorem compareColumnListsJS_ok :
    ∀ (s t : List Column) (r : Bool),
      compareColumnListsJS s t = Except.ok r → compareColumnLists s t = r := by
  intro s
  induction s with
  | nil =>
    intro t r h
    cases t with
    | nil => exact Except.ok.inj h
    | cons b tb => exact Except.ok.inj h
  | cons a sa ih =>
    intro t r h
    cases t with
    | nil => exact Except.ok.inj h
    | cons b tb =>
      simp only [compareColumnListsJS] at h
      simp only [compareColumnLists]
      by_cases h1 : (lowerString a.name != lowerString b.name) = true
      · rw [if_pos h1] at h
        rw [if_pos h1]
        exact Except.ok.inj h
      · rw [if_neg h1] at h
        rw [if_neg h1]
        by_cases h2 : (a.nullable != b.nullable) = true
        · rw [if_pos h2] at h
          rw [if_pos h2]
          exact Except.ok.inj h
        · rw [if_neg h2] at h
          rw [if_neg h2]
          cases hc : areTypesCompatibleJS a.type b.type with
          | error e =>
            rw [hc] at h
            simp at h
          | ok cr =>
            rw [hc] at h
            rw [areTypesCompatibleJS_ok a.type b.type cr hc]
            cases cr with
            | false =>
              have hr : false = r := Except.ok.inj h
              subst hr
              rfl
            | true =>
              have h3 : compareColumnListsJS sa tb = Except.ok r := h
              exact ih tb r h3

theorem compareSchemasJS_ok (s t : List Column) (r : Bool)
    (h : compareSchemasJS s t = Except.ok r) : compareSchemas s t = r := by
  unfold compareSchemasJS at h
  unfold compareSchemas
  by_cases hl : (s.length != t.length) = true
  · rw [if_pos hl] at h
    rw [if_pos hl]
    exact Except.ok.inj h
  · rw [if_neg hl] at h
    rw [if_neg hl]
    exact compareColumnListsJS_ok s t r h

/-- C3: the claim and the spec say areTypesCompatible is total and never
throws, but the program is not total: for a normalized type name that is
an inherited Object.prototype key, the bracket lookup on the object
literal yields the inherited member, which passes the truthiness guard
yet has no includes method, so the call throws a TypeError.  SQLite
accepts freeform declared type names, so a column typed constructor
reaches this path.  The exact-match step still precedes the lookup, so
the pair of the key with itself returns true, and the boolean projection
used elsewhere in this file agrees with the program on every execution
that returns (areTypesCompatibleJS_ok). -/
theorem areTypesCompatible_throws :
    areTypesCompatibleJS "constructor" "text"
        = Except.error "TypeError: typeMap[key].includes is not a function"
    ∧ areTypesCompatibleJS "text" "constructor"
        = Except.error "TypeError: typeMap[key].includes is not a function"
    ∧ areTypesCompatibleJS "constructor" "constructor" = Except.ok true :=
  ⟨rfl, rfl, rfl⟩

/-- C5: the claim says compareSchemas returns false whenever some
position has a name, nullability or type defect, but the program can
throw instead of returning: at this input position two has a
case-insensitive name mismatch, yet the TypeError raised while comparing
the types constructor and text at position one escapes compareSchemas,
so no boolean is ever returned.  The second conjunct shows the verdict
the claim expects, computed by the boolean projection. -/
theorem compareSchemas_throws :
    compareSchemasJS
        [{ name := "c1", type := "constructor", nullable := false },
         { name := "c2", type := "int", nullable := false }]
        [{ name := "c1", type := "text", nullable := false },
         { name := "other", type := "int", nullable := false }]
      = Except.error "TypeError: typeMap[key].includes is not a function"
    ∧ compareSchemas
        [{ name := "c1", type := "constructor", nullable := false },
         { name := "c2", type := "int", nullable := false }]
        [{ name := "c1", type := "text", nullable := false },
         { name := "other", type := "int", nullable := false }]
      = false :=
  ⟨rfl, rfl⟩
